import Mathlib

/-!
Verification of the matching/messaging core of the `matchapp` repository.

The repository is a Flask + SQLAlchemy web application.  We shallowly embed
its persistent store (tables `users`, `profiles`, `likes`, `matches`,
`messages`) as lists of records inside a `State` structure, and its core
operations as pure state-transforming functions:

* `Like.create_like_and_check_match`  (src/models.py, lines 109-145)
* `unlike_user`                       (src/routes/match.py, lines 92-125)
* `User.get_match_with_user`          (src/models.py, lines 49-55)
* `discover`                          (src/routes/match.py, lines 12-28)
* `send_message`                      (src/routes/chat.py, lines 58-104,
                                       validation from `MessageForm`,
                                       src/forms.py lines 76-82)
* `mark_messages_read`                (src/routes/chat.py, lines 133-162)
* `register`                          (src/routes/auth.py, lines 12-50)

Row ids are modelled by per-table counters (SQLAlchemy autoincrement
primary keys); timestamps by a `now : Nat` clock recorded into `created_at`
fields.  `db.session.delete(row)` of a row found by a `filter_by(...).first()`
query is modelled by `List.eraseP` with the same predicate (it removes
exactly the first row satisfying the filter, which is the row the query
returned).  The `cascade='all, delete-orphan'` relationship from `Match` to
`Message` (src/models.py line 161) means deleting a Match also deletes the
messages whose `match_id` refers to it.
-/

namespace Matchapp

/-- A row of the `users` table (src/models.py lines 12-21).  Only the fields
the core logic reads are kept: `id` and the `active` flag.  The email and
password hash never influence the matching/messaging state machine. -/
structure UserRow where
  id     : Nat
  active : Bool
  deriving Repr, DecidableEq

/-- A row of the `profiles` table (src/models.py lines 66-78): the owning
user and the display name, which is what `discover` filters on. -/
structure ProfileRow where
  user_id : Nat
  name    : String
  deriving Repr, DecidableEq

/-- A row of the `likes` table (src/models.py lines 97-107): a directed
edge `user_id → liked_user_id` with an autoincrement primary key. -/
structure LikeRow where
  id            : Nat
  user_id       : Nat
  liked_user_id : Nat
  deriving Repr, DecidableEq

/-- A row of the `matches` table (src/models.py lines 151-164). -/
structure MatchRow where
  id       : Nat
  user1_id : Nat
  user2_id : Nat
  deriving Repr, DecidableEq

/-- A row of the `messages` table (src/models.py lines 182-191). -/
structure MessageRow where
  id         : Nat
  match_id   : Nat
  sender_id  : Nat
  content    : String
  created_at : Nat
  is_read    : Bool
  deriving Repr, DecidableEq

/-- The persistent store: one list per table, one autoincrement counter per
table with an autoincrement id that the core reads back, and a clock. -/
structure State where
  users         : List UserRow
  profiles      : List ProfileRow
  likes         : List LikeRow
  «matches»     : List MatchRow
  messages      : List MessageRow
  nextUserId    : Nat
  nextLikeId    : Nat
  nextMatchId   : Nat
  nextMessageId : Nat
  now           : Nat
  deriving Repr, DecidableEq

/-- The empty database the app starts from (`db.create_all()`). -/
def initState : State :=
  { users := [], profiles := [], likes := [], «matches» := [], messages := []
    nextUserId := 0, nextLikeId := 0, nextMatchId := 0, nextMessageId := 0
    now := 0 }

/-- `Like.query.filter_by(user_id=a, liked_user_id=b)`: the row filter for
the directed like edge `a → b`. -/
def likePred (a b : Nat) (l : LikeRow) : Bool :=
  l.user_id == a && l.liked_user_id == b

/-- `Like.query.filter_by(user_id=a, liked_user_id=b).first()`. -/
def findLike (s : State) (a b : Nat) : Option LikeRow :=
  s.likes.find? (likePred a b)

/-- The unordered-pair filter used identically in
`User.get_match_with_user` (src/models.py lines 51-54), in the defensive
existing-match check of `create_like_and_check_match` (lines 131-134) and
in `unlike_user` (src/routes/match.py lines 106-111):
`(user1==a AND user2==b) OR (user1==b AND user2==a)`. -/
def matchPairPred (a b : Nat) (m : MatchRow) : Bool :=
  (m.user1_id == a && m.user2_id == b) || (m.user1_id == b && m.user2_id == a)

/-- `Match.query.filter(pair condition).first()`. -/
def findMatchPair (s : State) (a b : Nat) : Option MatchRow :=
  s.«matches».find? (matchPairPred a b)

/-- `User.get_match_with_user(other_user_id)` (src/models.py lines 49-55):
look up the Match row for the unordered pair `{selfId, otherId}`. -/
def get_match_with_user (s : State) (selfId otherId : Nat) : Option MatchRow :=
  findMatchPair s selfId otherId

/-- The fresh Like row `Like(user_id=a, liked_user_id=b)` inserted by
`create_like_and_check_match` (src/models.py line 122). -/
def newLikeRow (a b : Nat) (s : State) : LikeRow :=
  { id := s.nextLikeId, user_id := a, liked_user_id := b }

/-- The session state right after `db.session.add(new_like)`
(src/models.py line 123). -/
def afterLikeInsert (a b : Nat) (s : State) : State :=
  { s with likes := s.likes ++ [newLikeRow a b s], nextLikeId := s.nextLikeId + 1 }

/-- The canonical Match row inserted on reciprocity: user ids sorted
ascending (src/models.py lines 137-140). -/
def newMatchRow (a b : Nat) (s : State) : MatchRow :=
  { id := s.nextMatchId, user1_id := min a b, user2_id := max a b }

/-- The session state right after `db.session.delete(like)` in `unlike_user`
(src/routes/match.py line 103): the first row matching the
`filter_by(user_id=actor, liked_user_id=target)` query is removed. -/
def afterLikeErase (a b : Nat) (s : State) : State :=
  { s with likes := s.likes.eraseP (likePred a b) }

/-- The session state right after `db.session.delete(match)`
(src/routes/match.py line 118): the Match row for the unordered pair goes,
and with it — through `cascade='all, delete-orphan'` (src/models.py line
161) — every Message row of that match. -/
def afterMatchErase (a b : Nat) (m : MatchRow) (s : State) : State :=
  { s with «matches» := s.«matches».eraseP (matchPairPred a b)
           messages := s.messages.filter (fun msg => !(msg.match_id == m.id)) }

/-- `Like.create_like_and_check_match(user_id, liked_user_id)`
(src/models.py lines 109-145).  Returns the (optional) Like row, the
`match_created` flag, and the committed store.
* self-like: return `(None, False)` with no mutation (lines 112-114);
* existing like: return it with `match_created = False` (lines 116-119);
* otherwise insert the like (lines 121-123), look for the reverse like
  (line 126); if present and no Match row exists for the unordered pair
  (lines 129-134), insert `Match(min, max)` and report `match_created`
  (lines 136-142); commit (line 144). -/
def create_like_and_check_match (user_id liked_user_id : Nat) (s : State) :
    Option LikeRow × Bool × State :=
  if user_id == liked_user_id then
    (none, false, s)
  else
    match findLike s user_id liked_user_id with
    | some existing_like => (some existing_like, false, s)
    | none =>
      let new_like := newLikeRow user_id liked_user_id s
      let s1 := afterLikeInsert user_id liked_user_id s
      match findLike s1 liked_user_id user_id with
      | none => (some new_like, false, s1)
      | some _ =>
        match findMatchPair s1 user_id liked_user_id with
        | some _ => (some new_like, false, s1)
        | none =>
          (some new_like, true,
            { s1 with «matches» := s1.«matches» ++ [newMatchRow user_id liked_user_id s]
                      nextMatchId := s.nextMatchId + 1 })

/-- Outcome of the `/like/<user_id>` route. -/
inductive LikeResponse where
  /-- HTTP 400 `'Cannot like yourself'` (src/routes/match.py line 36). -/
  | selfLike : LikeResponse
  /-- HTTP 404 from `User.query.get_or_404` (line 38). -/
  | targetNotFound : LikeResponse
  /-- HTTP 400 `'Invalid like operation'` (line 44). -/
  | invalidOperation : LikeResponse
  /-- HTTP 200 with the `match_created` flag (lines 46-54). -/
  | ok (match_created : Bool) : LikeResponse
  deriving Repr, DecidableEq

/-- `like_user(user_id)` (src/routes/match.py lines 31-54): the route guard
around `create_like_and_check_match`. -/
def like_user (actor target : Nat) (s : State) : LikeResponse × State :=
  if target == actor then
    (.selfLike, s)
  else if !(s.users.any (fun u => u.id == target)) then
    (.targetNotFound, s)
  else
    match create_like_and_check_match actor target s with
    | (none, _, s') => (.invalidOperation, s')
    | (some _, match_created, s') => (.ok match_created, s')

/-- Outcome of the `/unlike/<user_id>` route. -/
inductive UnlikeResponse where
  /-- HTTP 404 `'Like not found'` (src/routes/match.py line 99). -/
  | notFound : UnlikeResponse
  /-- HTTP 200 `{'success': True, 'unliked': True}` (line 121). -/
  | success : UnlikeResponse
  deriving Repr, DecidableEq

/-- `unlike_user(user_id)` (src/routes/match.py lines 92-125).
* no Like(actor → target): 404, no mutation (lines 96-99);
* otherwise delete that Like row (line 103), look up the Match for the
  unordered pair (lines 106-111); if found and the reverse
  Like(target → actor) no longer exists, delete the Match (lines 113-118)
  — which cascade-deletes its messages (src/models.py line 161); commit
  (line 120). -/
def unlike_user (actor target : Nat) (s : State) : UnlikeResponse × State :=
  match findLike s actor target with
  | none => (.notFound, s)
  | some _ =>
    let s1 := afterLikeErase actor target s
    match findMatchPair s1 actor target with
    | none => (.success, s1)
    | some m =>
      match findLike s1 target actor with
      | some _ => (.success, s1)
      | none => (.success, afterMatchErase actor target m s1)

/-- The candidate filter of `discover` (src/routes/match.py lines 19-25):
`User.id != viewer`, `User.id` not among the viewer's liked ids,
`User.active == True`, and — through the inner join with `Profile` —
the user owns a Profile row whose `name != ''`. -/
def discoverPred (s : State) (viewer : Nat) (u : UserRow) : Bool :=
  !(u.id == viewer) &&
  !(s.likes.any (fun l => l.user_id == viewer && l.liked_user_id == u.id)) &&
  u.active &&
  s.profiles.any (fun p => p.user_id == u.id && !(p.name == ""))

/-- `discover()` (src/routes/match.py lines 12-28): the joined and filtered
user query with `limit(20)`. -/
def discover (viewer : Nat) (s : State) : List UserRow :=
  (s.users.filter (discoverPred s viewer)).take 20

/-- Outcome of the `/chat/<match_id>/send` route. -/
inductive SendResponse where
  /-- HTTP 404 from `Match.query.get_or_404` (src/routes/chat.py line 62). -/
  | matchNotFound : SendResponse
  /-- HTTP 403 `'Access denied'` (lines 65-66). -/
  | accessDenied : SendResponse
  /-- `form.validate_on_submit()` failed: HTTP 400 `'Invalid message data'`
  (lines 101-102). -/
  | validationError : SendResponse
  /-- Success: the created message, echoed back with id, content, sender
  and timestamp (lines 80-92). -/
  | sent (msg : MessageRow) : SendResponse
  deriving Repr, DecidableEq

/-- Python's `str.strip()`: drop leading and trailing whitespace.  Used by
the `DataRequired` validator and by `send_message` itself
(src/routes/chat.py line 74).  Defined over the character list so that it
evaluates by kernel reduction. -/
def strip (s : String) : String :=
  ⟨((s.data.dropWhile Char.isWhitespace).reverse.dropWhile Char.isWhitespace).reverse⟩

/-- The `MessageForm` content validators (src/forms.py lines 78-81):
`DataRequired` rejects a missing or whitespace-only string, and
`Length(min=1, max=1000)` bounds the raw (unstripped) length. -/
def messageFormValid (content : String) : Bool :=
  !(strip content == "") && decide (1 ≤ content.length) && decide (content.length ≤ 1000)

/-- `send_message(match_id)` (src/routes/chat.py lines 58-104):
look up the match (404 if absent), check the sender is one of its two
participants (403 otherwise), validate the form, then append a Message row
with the trimmed content, `sender_id = actor` and the default
`is_read = False` (src/models.py line 191), and commit. -/
def send_message (actor match_id : Nat) (content : String) (s : State) :
    SendResponse × State :=
  match s.«matches».find? (fun m => m.id == match_id) with
  | none => (.matchNotFound, s)
  | some m =>
    if !(actor == m.user1_id || actor == m.user2_id) then
      (.accessDenied, s)
    else if messageFormValid content then
      let msg : MessageRow :=
        { id := s.nextMessageId, match_id := match_id, sender_id := actor
          content := strip content, created_at := s.now, is_read := false }
      (.sent msg,
        { s with messages := s.messages ++ [msg]
                 nextMessageId := s.nextMessageId + 1 })
    else
      (.validationError, s)

/-- Outcome of the `/chat/<match_id>/mark-read` route. -/
inductive MarkReadResponse where
  /-- HTTP 404 from `Match.query.get_or_404` (src/routes/chat.py line 137). -/
  | matchNotFound : MarkReadResponse
  /-- HTTP 403 `'Access denied'` (lines 140-141). -/
  | accessDenied : MarkReadResponse
  /-- HTTP 200 with `marked_count` (line 158). -/
  | marked (count : Nat) : MarkReadResponse
  deriving Repr, DecidableEq

/-- The filter of `mark_messages_read` and of the unread-count queries
(src/routes/chat.py lines 145-151): messages of this match, from a sender
other than the actor, still unread. -/
def unreadPred (actor match_id : Nat) (msg : MessageRow) : Bool :=
  msg.match_id == match_id && !(msg.sender_id == actor) && msg.is_read == false

/-- `mark_messages_read(match_id)` (src/routes/chat.py lines 133-162):
look up the match (404), check membership (403), flip `is_read` to `True`
on every unread message of the match from the other side, commit, and
report how many were flipped. -/
def mark_messages_read (actor match_id : Nat) (s : State) :
    MarkReadResponse × State :=
  match s.«matches».find? (fun m => m.id == match_id) with
  | none => (.matchNotFound, s)
  | some m =>
    if !(actor == m.user1_id || actor == m.user2_id) then
      (.accessDenied, s)
    else
      let unread := s.messages.filter (unreadPred actor match_id)
      (.marked unread.length,
        { s with
            messages := s.messages.map (fun msg =>
              if unreadPred actor match_id msg then { msg with is_read := true }
              else msg) })

/-- `register()` (src/routes/auth.py lines 12-50): insert a fresh User row
(with the `active=True` column default, src/models.py line 19) and its
initial Profile row carrying the registration name, in one transaction. -/
def register (name : String) (s : State) : State :=
  { s with
      users := s.users ++ [{ id := s.nextUserId, active := true }]
      profiles := s.profiles ++ [{ user_id := s.nextUserId, name := name }]
      nextUserId := s.nextUserId + 1 }

/-- One externally triggered transaction against the store: the reachable
state space is generated by registration, likes, unlikes, messages and
read-marking.  (Profile edits and the chat-page implicit mark-read touch
no table the verified claims read beyond what these steps already cover.) -/
inductive Step : State → State → Prop where
  | register (name : String) (s : State) : Step s (register name s)
  | like (a b : Nat) (s : State) :
      Step s (create_like_and_check_match a b s).2.2
  | unlike (a b : Nat) (s : State) : Step s (unlike_user a b s).2
  | send (a mid : Nat) (c : String) (s : State) :
      Step s (send_message a mid c s).2
  | markRead (a mid : Nat) (s : State) :
      Step s (mark_messages_read a mid s).2

/-- A store state the running application can actually be in. -/
inductive Reachable : State → Prop where
  | init : Reachable initState
  | step {s s' : State} : Reachable s → Step s s' → Reachable s'

/-! ## Helper lemmas about the row filters -/

theorem likePred_eq_true_iff {a b : Nat} {l : LikeRow} :
    likePred a b l = true ↔ l.user_id = a ∧ l.liked_user_id = b := by
  simp [likePred]

theorem matchPairPred_eq_true_iff {a b : Nat} {m : MatchRow} :
    matchPairPred a b m = true ↔
      (m.user1_id = a ∧ m.user2_id = b) ∨ (m.user1_id = b ∧ m.user2_id = a) := by
  simp [matchPairPred]

/-- The unordered-pair filter is symmetric in the two user ids. -/
theorem matchPairPred_comm (a b : Nat) :
    matchPairPred a b = matchPairPred b a := by
  funext m
  simp only [matchPairPred]
  exact Bool.or_comm _ _

/-- Two Like rows for the same ordered pair (forbidden to coexist by the
`unique_like` constraint, src/models.py line 107). -/
def sameLikeEdge (l1 l2 : LikeRow) : Prop :=
  l1.user_id = l2.user_id ∧ l1.liked_user_id = l2.liked_user_id

/-- Two Match rows for the same unordered pair (forbidden to coexist by the
`unique_match` constraint plus canonical ordering, src/models.py lines
163-164). -/
def sameMatchPair (m1 m2 : MatchRow) : Prop :=
  (m1.user1_id = m2.user1_id ∧ m1.user2_id = m2.user2_id) ∨
  (m1.user1_id = m2.user2_id ∧ m1.user2_id = m2.user1_id)

theorem likePred_same {a b : Nat} {l1 l2 : LikeRow}
    (h1 : likePred a b l1 = true) (h2 : likePred a b l2 = true) :
    sameLikeEdge l1 l2 := by
  rw [likePred_eq_true_iff] at h1 h2
  exact ⟨h1.1.trans h2.1.symm, h1.2.trans h2.2.symm⟩

theorem matchPairPred_same {a b : Nat} {m1 m2 : MatchRow}
    (h1 : matchPairPred a b m1 = true) (h2 : matchPairPred a b m2 = true) :
    sameMatchPair m1 m2 := by
  rw [matchPairPred_eq_true_iff] at h1 h2
  rcases h1 with ⟨e1, e2⟩ | ⟨e1, e2⟩ <;> rcases h2 with ⟨f1, f2⟩ | ⟨f1, f2⟩ <;>
    simp [sameMatchPair, e1, e2, f1, f2]

/-! ## Generic list lemmas

`filter_by(...).first()` / `db.session.delete(row)` pairs always target the
first row satisfying the filter; when a uniqueness constraint guarantees at
most one such row, deleting it leaves none, and filtering yields exactly
the found row. -/

/-- Splitting a list around the row returned by `find?`: everything before
it fails the filter, and `eraseP` removes exactly that row. -/
theorem find?_eraseP_decomp {α : Type} {p : α → Bool} {l : List α} {x : α}
    (h : l.find? p = some x) :
    ∃ l1 l2, l = l1 ++ x :: l2 ∧ (∀ y ∈ l1, ¬ p y) ∧ l.eraseP p = l1 ++ l2 := by
  obtain ⟨hp, as, bs, rfl, hall⟩ := List.find?_eq_some.mp h
  refine ⟨as, bs, rfl, ?_, ?_⟩
  · intro y hy
    simpa using hall y hy
  · rw [List.eraseP_append_right, List.eraseP_cons_of_pos hp]
    intro y hy
    simpa using hall y hy

/-- If any two rows satisfying `p` would collide on a pairwise-forbidden
relation `S`, then after erasing the row `find?` located no row satisfying
`p` remains. -/
theorem eraseP_clears {α : Type} {p : α → Bool} {S : α → α → Prop}
    {l : List α} {x : α}
    (hpw : l.Pairwise (fun u v => ¬ S u v))
    (hfind : l.find? p = some x)
    (hS : ∀ y z, p y = true → p z = true → S y z) :
    ∀ y ∈ l.eraseP p, p y = false := by
  obtain ⟨l1, l2, hsplit, hl1, herase⟩ := find?_eraseP_decomp hfind
  subst hsplit
  rw [herase]
  intro y hy
  rcases List.mem_append.mp hy with hy1 | hy2
  · exact Bool.eq_false_iff.mpr (hl1 y hy1)
  · by_contra hpy
    have hpx : p x = true := List.find?_some hfind
    have hpy' : p y = true := by
      cases hpyv : p y with
      | false => exact absurd hpyv hpy
      | true => rfl
    have hnS : ¬ S x y := by
      have := (List.pairwise_append.mp hpw).2.1
      exact (List.pairwise_cons.mp this).1 y hy2
    exact hnS (hS x y hpx hpy')

/-- Under the same uniqueness discipline, filtering yields exactly the row
`find?` located. -/
theorem find?_unique_filter {α : Type} {p : α → Bool} {S : α → α → Prop}
    {l : List α} {x : α}
    (hpw : l.Pairwise (fun u v => ¬ S u v))
    (hfind : l.find? p = some x)
    (hS : ∀ y z, p y = true → p z = true → S y z) :
    l.filter p = [x] := by
  obtain ⟨l1, l2, hsplit, hl1, _⟩ := find?_eraseP_decomp hfind
  subst hsplit
  have hpx : p x = true := List.find?_some hfind
  have hl2 : ∀ y ∈ l2, p y = false := by
    intro y hy2
    by_contra hpy
    have hpy' : p y = true := by
      cases hpyv : p y with
      | false => exact absurd hpyv hpy
      | true => rfl
    have hnS : ¬ S x y := by
      have := (List.pairwise_append.mp hpw).2.1
      exact (List.pairwise_cons.mp this).1 y hy2
    exact hnS (hS x y hpx hpy')
  rw [List.filter_append, List.filter_cons_of_pos hpx,
    List.filter_eq_nil_iff.mpr (fun y hy => Bool.eq_false_iff.mp (Bool.eq_false_iff.mpr (hl1 y hy))),
    List.filter_eq_nil_iff.mpr (fun y hy => Bool.eq_false_iff.mp (hl2 y hy))]
  rfl

/-- A member of a list is either among its first `n` elements or the `take`
is already full: only the cap, never another filter, keeps a member out. -/
theorem mem_take_or_length {α : Type} {l : List α} {x : α} (n : Nat)
    (hx : x ∈ l) : x ∈ l.take n ∨ (l.take n).length = n := by
  rcases Nat.le_total l.length n with hle | hle
  · left
    rw [List.take_of_length_le hle]
    exact hx
  · right
    rw [List.length_take]
    omega

/-! ## Branch equations for the like/match engine -/

theorem create_like_self (a b : Nat) (s : State) (h : a = b) :
    create_like_and_check_match a b s = (none, false, s) := by
  simp [create_like_and_check_match, h]

theorem create_like_existing (a b : Nat) (s : State) (lk : LikeRow)
    (hab : a ≠ b) (h : findLike s a b = some lk) :
    create_like_and_check_match a b s = (some lk, false, s) := by
  simp [create_like_and_check_match, hab, h]

/-- Inserting a fresh Like does not create a row for the reverse direction,
so the reverse-like query after the insert equals the one before. -/
theorem findLike_afterLikeInsert_rev (a b : Nat) (s : State) (hab : a ≠ b) :
    findLike (afterLikeInsert a b s) b a = findLike s b a := by
  simp [findLike, afterLikeInsert, List.find?_append, newLikeRow, likePred,
    Ne.symm hab]

/-- The inserted Like is the first row for its own direction when none
existed. -/
theorem findLike_afterLikeInsert_fwd (a b : Nat) (s : State)
    (h : findLike s a b = none) :
    findLike (afterLikeInsert a b s) a b = some (newLikeRow a b s) := by
  simp only [findLike, afterLikeInsert, List.find?_append]
  rw [findLike] at h
  simp [h, likePred, newLikeRow]

theorem create_like_fresh_noRev (a b : Nat) (s : State)
    (hab : a ≠ b) (h : findLike s a b = none) (hrev : findLike s b a = none) :
    create_like_and_check_match a b s =
      (some (newLikeRow a b s), false, afterLikeInsert a b s) := by
  have hrev1 : findLike (afterLikeInsert a b s) b a = none :=
    (findLike_afterLikeInsert_rev a b s hab).trans hrev
  simp only [create_like_and_check_match, beq_iff_eq, if_neg hab, h]
  rw [hrev1]

theorem create_like_fresh_rev_match (a b : Nat) (s : State) (r : LikeRow) (m : MatchRow)
    (hab : a ≠ b) (h : findLike s a b = none)
    (hrev : findLike s b a = some r) (hm : findMatchPair s a b = some m) :
    create_like_and_check_match a b s =
      (some (newLikeRow a b s), false, afterLikeInsert a b s) := by
  have hrev1 : findLike (afterLikeInsert a b s) b a = some r :=
    (findLike_afterLikeInsert_rev a b s hab).trans hrev
  have hm1 : findMatchPair (afterLikeInsert a b s) a b = some m := hm
  simp only [create_like_and_check_match, beq_iff_eq, if_neg hab, h]
  rw [hrev1, hm1]

theorem create_like_fresh_rev_noMatch (a b : Nat) (s : State) (r : LikeRow)
    (hab : a ≠ b) (h : findLike s a b = none)
    (hrev : findLike s b a = some r) (hm : findMatchPair s a b = none) :
    create_like_and_check_match a b s =
      (some (newLikeRow a b s), true,
       { afterLikeInsert a b s with
           «matches» := s.«matches» ++ [newMatchRow a b s]
           nextMatchId := s.nextMatchId + 1 }) := by
  have hrev1 : findLike (afterLikeInsert a b s) b a = some r :=
    (findLike_afterLikeInsert_rev a b s hab).trans hrev
  have hm1 : findMatchPair (afterLikeInsert a b s) a b = none := hm
  simp only [create_like_and_check_match, beq_iff_eq, if_neg hab, h]
  rw [hrev1, hm1]
  rfl

theorem unlike_noLike (a b : Nat) (s : State) (h : findLike s a b = none) :
    unlike_user a b s = (.notFound, s) := by
  simp [unlike_user, h]

theorem unlike_noMatch (a b : Nat) (s : State) (lk : LikeRow)
    (h : findLike s a b = some lk) (hm : findMatchPair s a b = none) :
    unlike_user a b s = (.success, afterLikeErase a b s) := by
  have hm1 : findMatchPair (afterLikeErase a b s) a b = none := hm
  simp only [unlike_user, h]
  rw [hm1]

theorem unlike_match_revKept (a b : Nat) (s : State) (lk r : LikeRow) (m : MatchRow)
    (h : findLike s a b = some lk) (hm : findMatchPair s a b = some m)
    (hrev : findLike (afterLikeErase a b s) b a = some r) :
    unlike_user a b s = (.success, afterLikeErase a b s) := by
  have hm1 : findMatchPair (afterLikeErase a b s) a b = some m := hm
  simp only [unlike_user, h]
  rw [hm1, hrev]

theorem unlike_match_revGone (a b : Nat) (s : State) (lk : LikeRow) (m : MatchRow)
    (h : findLike s a b = some lk) (hm : findMatchPair s a b = some m)
    (hrev : findLike (afterLikeErase a b s) b a = none) :
    unlike_user a b s =
      (.success, afterMatchErase a b m (afterLikeErase a b s)) := by
  have hm1 : findMatchPair (afterLikeErase a b s) a b = some m := hm
  simp only [unlike_user, h]
  rw [hm1, hrev]

/-! ## Store invariants -/

/-- The invariants every reachable store satisfies: the `unique_like` and
`unique_match` schema constraints, distinctness of a match's two
participants, the engine's guarantee that a Match row is always backed by
at least one of its two Like edges, and well-formedness of Message rows. -/
structure Invariants (s : State) : Prop where
  likeUnique : s.likes.Pairwise (fun l1 l2 => ¬ sameLikeEdge l1 l2)
  matchUnique : s.«matches».Pairwise (fun m1 m2 => ¬ sameMatchPair m1 m2)
  matchUsersDistinct : ∀ m ∈ s.«matches», m.user1_id ≠ m.user2_id
  matchHasLike : ∀ m ∈ s.«matches»,
    (∃ l ∈ s.likes, l.user_id = m.user1_id ∧ l.liked_user_id = m.user2_id) ∨
    (∃ l ∈ s.likes, l.user_id = m.user2_id ∧ l.liked_user_id = m.user1_id)
  messageOk : ∀ msg ∈ s.messages, ∃ m ∈ s.«matches»,
    m.id = msg.match_id ∧ (msg.sender_id = m.user1_id ∨ msg.sender_id = m.user2_id)
  matchIdBound : ∀ m ∈ s.«matches», m.id < s.nextMatchId
  matchIdUnique : s.«matches».Pairwise (fun m1 m2 => m1.id ≠ m2.id)

theorem invariants_init : Invariants initState := by
  constructor <;> simp [initState]

theorem invariants_register (name : String) (s : State) (inv : Invariants s) :
    Invariants (register name s) :=
  ⟨inv.likeUnique, inv.matchUnique, inv.matchUsersDistinct, inv.matchHasLike,
    inv.messageOk, inv.matchIdBound, inv.matchIdUnique⟩

theorem findLike_eq_none_iff {s : State} {a b : Nat} :
    findLike s a b = none ↔ ∀ l ∈ s.likes, ¬ likePred a b l = true := by
  rw [findLike, List.find?_eq_none]

theorem findMatchPair_eq_none_iff {s : State} {a b : Nat} :
    findMatchPair s a b = none ↔ ∀ m ∈ s.«matches», ¬ matchPairPred a b m = true := by
  rw [findMatchPair, List.find?_eq_none]

theorem invariants_afterLikeInsert (a b : Nat) (s : State)
    (hfl : findLike s a b = none) (inv : Invariants s) :
    Invariants (afterLikeInsert a b s) := by
  have hnone := findLike_eq_none_iff.mp hfl
  refine ⟨?_, inv.matchUnique, inv.matchUsersDistinct, ?_, inv.messageOk,
    inv.matchIdBound, inv.matchIdUnique⟩
  · show (s.likes ++ [newLikeRow a b s]).Pairwise _
    rw [List.pairwise_append]
    refine ⟨inv.likeUnique, List.pairwise_singleton _ _, ?_⟩
    intro l hl nl hnl hsame
    rw [List.mem_singleton] at hnl
    subst hnl
    simp only [sameLikeEdge, newLikeRow] at hsame
    exact hnone l hl (by rw [likePred_eq_true_iff]; exact hsame)
  · intro m hm
    rcases inv.matchHasLike m hm with ⟨l, hl, he⟩ | ⟨l, hl, he⟩
    · exact Or.inl ⟨l, List.mem_append_left _ hl, he⟩
    · exact Or.inr ⟨l, List.mem_append_left _ hl, he⟩

theorem invariants_create_match (a b : Nat) (s : State)
    (hab : a ≠ b) (hfl : findLike s a b = none)
    (hm : findMatchPair s a b = none) (inv : Invariants s) :
    Invariants { afterLikeInsert a b s with
        «matches» := s.«matches» ++ [newMatchRow a b s]
        nextMatchId := s.nextMatchId + 1 } := by
  have base := invariants_afterLikeInsert a b s hfl inv
  have hmnone := findMatchPair_eq_none_iff.mp hm
  refine ⟨base.likeUnique, ?_, ?_, ?_, ?_, ?_, ?_⟩
  · show (s.«matches» ++ [newMatchRow a b s]).Pairwise _
    rw [List.pairwise_append]
    refine ⟨inv.matchUnique, List.pairwise_singleton _ _, ?_⟩
    intro m hmm nm hnm hsame
    rw [List.mem_singleton] at hnm
    subst hnm
    apply hmnone m hmm
    rw [matchPairPred_eq_true_iff]
    simp only [sameMatchPair, newMatchRow] at hsame
    omega
  · intro m hmm
    rcases List.mem_append.mp hmm with h | h
    · exact inv.matchUsersDistinct m h
    · rw [List.mem_singleton] at h
      subst h
      simp only [newMatchRow]
      omega
  · intro m hmm
    rcases List.mem_append.mp hmm with h | h
    · rcases inv.matchHasLike m h with ⟨l, hl, he⟩ | ⟨l, hl, he⟩
      · exact Or.inl ⟨l, List.mem_append_left _ hl, he⟩
      · exact Or.inr ⟨l, List.mem_append_left _ hl, he⟩
    · rw [List.mem_singleton] at h
      subst h
      have hmem : newLikeRow a b s ∈ (afterLikeInsert a b s).likes := by
        simp [afterLikeInsert]
      rcases Nat.le_total a b with hle | hle
      · exact Or.inl ⟨newLikeRow a b s, hmem, by simp only [newLikeRow, newMatchRow]; omega⟩
      · exact Or.inr ⟨newLikeRow a b s, hmem, by simp only [newLikeRow, newMatchRow]; omega⟩
  · intro msg hmsg
    obtain ⟨m, hmm, hid, hs⟩ := inv.messageOk msg hmsg
    exact ⟨m, List.mem_append_left _ hmm, hid, hs⟩
  · intro m hmm
    rcases List.mem_append.mp hmm with h | h
    · exact Nat.lt_trans (inv.matchIdBound m h) (Nat.lt_succ_self _)
    · rw [List.mem_singleton] at h
      subst h
      exact Nat.lt_succ_self _
  · show (s.«matches» ++ [newMatchRow a b s]).Pairwise _
    rw [List.pairwise_append]
    refine ⟨inv.matchIdUnique, List.pairwise_singleton _ _, ?_⟩
    intro m hmm nm hnm
    rw [List.mem_singleton] at hnm
    subst hnm
    have := inv.matchIdBound m hmm
    simp only [newMatchRow]
    omega

theorem invariants_create_like (a b : Nat) (s : State) (inv : Invariants s) :
    Invariants (create_like_and_check_match a b s).2.2 := by
  by_cases hab : a = b
  · rw [create_like_self a b s hab]
    exact inv
  · cases hfl : findLike s a b with
    | some lk =>
      rw [create_like_existing a b s lk hab hfl]
      exact inv
    | none =>
      cases hrev : findLike s b a with
      | none =>
        rw [create_like_fresh_noRev a b s hab hfl hrev]
        exact invariants_afterLikeInsert a b s hfl inv
      | some r =>
        cases hm : findMatchPair s a b with
        | some m =>
          rw [create_like_fresh_rev_match a b s r m hab hfl hrev hm]
          exact invariants_afterLikeInsert a b s hfl inv
        | none =>
          rw [create_like_fresh_rev_noMatch a b s r hab hfl hrev hm]
          exact invariants_create_match a b s hab hfl hm inv

/-- A Match row not covering the unordered pair `{a, b}` keeps one of its
backing Like edges when the Like `a → b` is erased. -/
theorem matchHasLike_of_not_pair {a b : Nat} {s : State} {m : MatchRow}
    (hml : (∃ l ∈ s.likes, l.user_id = m.user1_id ∧ l.liked_user_id = m.user2_id) ∨
           (∃ l ∈ s.likes, l.user_id = m.user2_id ∧ l.liked_user_id = m.user1_id))
    (hpred : ¬ matchPairPred a b m = true) :
    (∃ l ∈ (afterLikeErase a b s).likes,
        l.user_id = m.user1_id ∧ l.liked_user_id = m.user2_id) ∨
    (∃ l ∈ (afterLikeErase a b s).likes,
        l.user_id = m.user2_id ∧ l.liked_user_id = m.user1_id) := by
  rcases hml with ⟨l, hl, he1, he2⟩ | ⟨l, hl, he1, he2⟩
  · have hlp : ¬ likePred a b l = true := by
      intro hc
      rw [likePred_eq_true_iff] at hc
      exact hpred (by rw [matchPairPred_eq_true_iff]; left; omega)
    exact Or.inl ⟨l, (List.mem_eraseP_of_neg hlp).mpr hl, he1, he2⟩
  · have hlp : ¬ likePred a b l = true := by
      intro hc
      rw [likePred_eq_true_iff] at hc
      exact hpred (by rw [matchPairPred_eq_true_iff]; right; omega)
    exact Or.inr ⟨l, (List.mem_eraseP_of_neg hlp).mpr hl, he1, he2⟩

theorem invariants_unlike (a b : Nat) (s : State) (inv : Invariants s) :
    Invariants (unlike_user a b s).2 := by
  have hlikeU : (afterLikeErase a b s).likes.Pairwise (fun l1 l2 => ¬ sameLikeEdge l1 l2) :=
    inv.likeUnique.sublist (List.eraseP_sublist _)
  cases hfl : findLike s a b with
  | none =>
    rw [unlike_noLike a b s hfl]
    exact inv
  | some lk =>
    cases hm : findMatchPair s a b with
    | none =>
      rw [unlike_noMatch a b s lk hfl hm]
      have hmnone := findMatchPair_eq_none_iff.mp hm
      exact ⟨hlikeU, inv.matchUnique, inv.matchUsersDistinct,
        fun m hmm => matchHasLike_of_not_pair (inv.matchHasLike m hmm) (hmnone m hmm),
        inv.messageOk, inv.matchIdBound, inv.matchIdUnique⟩
    | some m =>
      cases hrev : findLike (afterLikeErase a b s) b a with
      | some r =>
        rw [unlike_match_revKept a b s lk r m hfl hm hrev]
        have hr : r ∈ (afterLikeErase a b s).likes := List.mem_of_find?_eq_some hrev
        have hrp : likePred b a r = true := List.find?_some hrev
        rw [likePred_eq_true_iff] at hrp
        refine ⟨hlikeU, inv.matchUnique, inv.matchUsersDistinct, ?_, inv.messageOk,
          inv.matchIdBound, inv.matchIdUnique⟩
        intro m' hmm'
        by_cases hpred : matchPairPred a b m' = true
        · rw [matchPairPred_eq_true_iff] at hpred
          rcases hpred with ⟨e1, e2⟩ | ⟨e1, e2⟩
          · exact Or.inr ⟨r, hr, by omega, by omega⟩
          · exact Or.inl ⟨r, hr, by omega, by omega⟩
        · exact matchHasLike_of_not_pair (inv.matchHasLike m' hmm') hpred
      | none =>
        rw [unlike_match_revGone a b s lk m hfl hm hrev]
        have hcleared : ∀ y ∈ s.«matches».eraseP (matchPairPred a b),
            matchPairPred a b y = false :=
          eraseP_clears inv.matchUnique hm (fun y z => matchPairPred_same)
        refine ⟨hlikeU, inv.matchUnique.sublist (List.eraseP_sublist _), ?_, ?_, ?_,
          fun m' hmm' => inv.matchIdBound m' (List.mem_of_mem_eraseP hmm'),
          inv.matchIdUnique.sublist (List.eraseP_sublist _)⟩
        · intro m' hmm'
          exact inv.matchUsersDistinct m' (List.mem_of_mem_eraseP hmm')
        · intro m' hmm'
          have hpred : ¬ matchPairPred a b m' = true := by
            rw [hcleared m' hmm']
            exact Bool.false_ne_true
          exact matchHasLike_of_not_pair
            (inv.matchHasLike m' (List.mem_of_mem_eraseP hmm')) hpred
        · intro msg hmsg
          have hmsg' := List.mem_filter.mp hmsg
          have hne : msg.match_id ≠ m.id := by
            simpa using hmsg'.2
          obtain ⟨m'', hm'', hid, hs⟩ := inv.messageOk msg hmsg'.1
          obtain ⟨l1, l2, hsplit, _, herase⟩ := find?_eraseP_decomp hm
          refine ⟨m'', ?_, hid, hs⟩
          show m'' ∈ s.«matches».eraseP (matchPairPred a b)
          rw [herase]
          have : m'' ∈ l1 ++ m :: l2 := by rw [← hsplit]; exact hm''
          rcases List.mem_append.mp this with h1 | h2
          · exact List.mem_append_left _ h1
          · rcases List.mem_cons.mp h2 with heq | h3
            · exact absurd (heq ▸ hid) (Ne.symm hne)
            · exact List.mem_append_right _ h3

theorem invariants_send (a mid : Nat) (c : String) (s : State) (inv : Invariants s) :
    Invariants (send_message a mid c s).2 := by
  simp only [send_message]
  cases hfind : s.«matches».find? (fun m => m.id == mid) with
  | none => exact inv
  | some m =>
    by_cases hmem : (a == m.user1_id || a == m.user2_id) = true
    · simp only [hmem, Bool.not_true, Bool.false_eq_true, if_false]
      by_cases hv : messageFormValid c = true
      · simp only [hv, if_true]
        refine ⟨inv.likeUnique, inv.matchUnique, inv.matchUsersDistinct,
          inv.matchHasLike, ?_, inv.matchIdBound, inv.matchIdUnique⟩
        intro msg hmsg
        rcases List.mem_append.mp hmsg with h | h
        · exact inv.messageOk msg h
        · rw [List.mem_singleton] at h
          subst h
          refine ⟨m, List.mem_of_find?_eq_some hfind, ?_, ?_⟩
          · have h2 := List.find?_some hfind
            show m.id = mid
            exact beq_iff_eq.mp h2
          · show a = m.user1_id ∨ a = m.user2_id
            simpa using hmem
      · simp only [hv, if_false]
        exact inv
    · rw [Bool.not_eq_true] at hmem
      simp only [hmem, Bool.not_false, if_true]
      exact inv

theorem invariants_mark_read (a mid : Nat) (s : State) (inv : Invariants s) :
    Invariants (mark_messages_read a mid s).2 := by
  simp only [mark_messages_read]
  cases hfind : s.«matches».find? (fun m => m.id == mid) with
  | none => exact inv
  | some m =>
    by_cases hmem : (a == m.user1_id || a == m.user2_id) = true
    · simp only [hmem, Bool.not_true, Bool.false_eq_true, if_false]
      refine ⟨inv.likeUnique, inv.matchUnique, inv.matchUsersDistinct,
        inv.matchHasLike, ?_, inv.matchIdBound, inv.matchIdUnique⟩
      intro msg' hmsg'
      obtain ⟨msg, hmsg, heq⟩ := List.mem_map.mp hmsg'
      obtain ⟨m', hm', hid, hs⟩ := inv.messageOk msg hmsg
      refine ⟨m', hm', ?_, ?_⟩
      · rw [← heq]
        by_cases hc : unreadPred a mid msg = true
        · simp [hc, hid]
        · rw [Bool.not_eq_true] at hc
          simp [hc, hid]
      · rw [← heq]
        by_cases hc : unreadPred a mid msg = true
        · simpa [hc] using hs
        · rw [Bool.not_eq_true] at hc
          simpa [hc] using hs
    · rw [Bool.not_eq_true] at hmem
      simp only [hmem, Bool.not_false, if_true]
      exact inv

theorem invariants_step {s s' : State} (inv : Invariants s) (h : Step s s') :
    Invariants s' := by
  cases h with
  | register name s => exact invariants_register name s inv
  | like a b s => exact invariants_create_like a b s inv
  | unlike a b s => exact invariants_unlike a b s inv
  | send a mid c s => exact invariants_send a mid c s inv
  | markRead a mid s => exact invariants_mark_read a mid s inv

/-- Every reachable store state satisfies all the invariants. -/
theorem invariants_reachable {s : State} (h : Reachable s) : Invariants s := by
  induction h with
  | init => exact invariants_init
  | step _ hstep ih => exact invariants_step ih hstep

/-! ## Concrete runs of the engine

Small concrete stores, produced by running the operations from the empty
database, used to instantiate the verified properties. -/

/-- The store after user 1 likes user 2 on the empty database. -/
def s_like12 : State := (create_like_and_check_match 1 2 initState).2.2

/-- The store after the mutual like 1 ↔ 2: one Like each way and the
canonical Match row `(1, 2)` with id 0. -/
def s_mutual : State := (create_like_and_check_match 2 1 s_like12).2.2

/-- The store after user 1 sends "hi" in match 0. -/
def s_msg : State := (send_message 1 0 "hi" s_mutual).2

/-- The store with two registered users (ids 0 and 1) and their profiles. -/
def s_disc : State := register "Bob" (register "Alice" initState)

theorem reachable_s_like12 : Reachable s_like12 :=
  Reachable.step Reachable.init (Step.like 1 2 initState)

theorem reachable_s_mutual : Reachable s_mutual :=
  Reachable.step reachable_s_like12 (Step.like 2 1 s_like12)

theorem reachable_s_msg : Reachable s_msg :=
  Reachable.step reachable_s_mutual (Step.send 1 0 "hi" s_mutual)

/-! ## Further helper lemmas -/

/-- In a list whose elements have pairwise distinct keys, the key determines
the element. -/
theorem pairwise_key_inj {α β : Type} {f : α → β} {l : List α}
    (h : l.Pairwise (fun x y => f x ≠ f y)) :
    ∀ a ∈ l, ∀ b ∈ l, f a = f b → a = b := by
  induction l with
  | nil => intro a ha; cases ha
  | cons x xs ih =>
    intro a ha b hb hf
    rcases List.mem_cons.mp ha with rfl | ha'
    · rcases List.mem_cons.mp hb with rfl | hb'
      · rfl
      · exact absurd hf ((List.pairwise_cons.mp h).1 b hb')
    · rcases List.mem_cons.mp hb with rfl | hb'
      · exact absurd hf.symm ((List.pairwise_cons.mp h).1 a ha')
      · exact ih (List.pairwise_cons.mp h).2 a ha' b hb' hf

/-- A string that is nonempty after stripping was nonempty to begin with
(so the `Length(min=1)` validator is subsumed by `DataRequired`). -/
theorem strip_length_pos {c : String} (h : strip c ≠ "") : 1 ≤ c.length := by
  rcases c with ⟨data⟩
  cases data with
  | nil => exact absurd rfl h
  | cons x xs =>
    show 1 ≤ (String.mk (x :: xs)).data.length
    simp

/-- The candidate filter of `discover`, spelled out as a proposition. -/
theorem discoverPred_iff {s : State} {viewer : Nat} {u : UserRow} :
    discoverPred s viewer u = true ↔
      u.id ≠ viewer ∧ findLike s viewer u.id = none ∧ u.active = true ∧
      ∃ p ∈ s.profiles, p.user_id = u.id ∧ p.name ≠ "" := by
  rw [findLike_eq_none_iff]
  simp [discoverPred, likePred, List.any_eq_true, not_exists]
  tauto

/-- The success branch of `mark_messages_read`, as one equation. -/
theorem mark_read_eq (actor mid : Nat) (s : State) (m : MatchRow)
    (hm : s.«matches».find? (fun x => x.id == mid) = some m)
    (hmem : (actor == m.user1_id || actor == m.user2_id) = true) :
    mark_messages_read actor mid s =
      (.marked (s.messages.filter (unreadPred actor mid)).length,
       { s with messages := s.messages.map (fun msg =>
           if unreadPred actor mid msg then { msg with is_read := true }
           else msg) }) := by
  simp only [mark_messages_read, hm, hmem, Bool.not_true, Bool.false_eq_true,
    if_false]

/-! ## The verified claims -/

/-- C7: `like(a, a)` always fails and performs no mutation — the engine
returns `(None, False)` leaving the store untouched, and the `/like` route
rejects the request with HTTP 400 before creating any Like or Match row. -/
theorem self_like_rejected (a : Nat) (s : State) :
    create_like_and_check_match a a s = (none, false, s) ∧
    like_user a a s = (.selfLike, s) :=
  ⟨create_like_self a a s rfl, by simp [like_user]⟩

/-- C6: when the Like `a → b` already exists, `like(a, b)` returns that
same existing Like row with `match_created = false`, leaves the store
unchanged, and afterwards the store holds exactly one Like row for the
ordered pair `(a, b)`. -/
theorem like_idempotent (a b : Nat) (s : State) (lk : LikeRow)
    (hreach : Reachable s) (hab : a ≠ b) (h : findLike s a b = some lk) :
    create_like_and_check_match a b s = (some lk, false, s) ∧
    (create_like_and_check_match a b s).2.2.likes.filter (likePred a b) = [lk] := by
  have heq := create_like_existing a b s lk hab h
  refine ⟨heq, ?_⟩
  rw [heq]
  exact find?_unique_filter (invariants_reachable hreach).likeUnique h
    (fun y z => likePred_same)

/-- Witness for C6: repeating the like 1 → 2 on the store where it already
exists returns the stored row id 0 and changes nothing. -/
theorem like_idempotent_witness :
    (1 : Nat) ≠ 2 ∧ findLike s_like12 1 2 = some ⟨0, 1, 2⟩ ∧
    create_like_and_check_match 1 2 s_like12 = (some ⟨0, 1, 2⟩, false, s_like12) ∧
    (create_like_and_check_match 1 2 s_like12).2.2.likes.filter (likePred 1 2) =
      [⟨0, 1, 2⟩] := by
  have h := like_idempotent 1 2 s_like12 ⟨0, 1, 2⟩ reachable_s_like12
    (by decide) (by decide)
  exact ⟨by decide, by decide, h.1, h.2⟩

/-- C5: every user `discover(viewer)` returns differs from the viewer, is
not already liked by the viewer, is active and has a profile with a
non-empty name; conversely any stored user passing those four filters is
returned unless the result already carries the full 20 rows — no further
condition (matches, incoming likes, …) excludes anyone. -/
theorem discover_characterization (viewer : Nat) (s : State) :
    (∀ u ∈ discover viewer s,
       u.id ≠ viewer ∧ findLike s viewer u.id = none ∧ u.active = true ∧
       ∃ p ∈ s.profiles, p.user_id = u.id ∧ p.name ≠ "") ∧
    (∀ u ∈ s.users,
       u.id ≠ viewer → findLike s viewer u.id = none → u.active = true →
       (∃ p ∈ s.profiles, p.user_id = u.id ∧ p.name ≠ "") →
       u ∈ discover viewer s ∨ (discover viewer s).length = 20) := by
  constructor
  · intro u hu
    have hu' : u ∈ s.users.filter (discoverPred s viewer) :=
      List.mem_of_mem_take hu
    exact discoverPred_iff.mp (List.mem_filter.mp hu').2
  · intro u hu h1 h2 h3 h4
    have hmemf : u ∈ s.users.filter (discoverPred s viewer) :=
      List.mem_filter.mpr ⟨hu, discoverPred_iff.mpr ⟨h1, h2, h3, h4⟩⟩
    exact mem_take_or_length 20 hmemf

/-- Witness for C5: on the two-user store, user 1 passes all four filters
and indeed shows up in user 0's discover feed. -/
theorem discover_characterization_witness :
    ((⟨1, true⟩ : UserRow).id ≠ 0 ∧ findLike s_disc 0 1 = none ∧
      (⟨1, true⟩ : UserRow).active = true ∧
      ∃ p ∈ s_disc.profiles, p.user_id = 1 ∧ p.name ≠ "") ∧
    ((⟨1, true⟩ : UserRow) ∈ discover 0 s_disc ∨
      (discover 0 s_disc).length = 20) := by
  constructor
  · exact (discover_characterization 0 s_disc).1 ⟨1, true⟩ (by decide)
  · exact (discover_characterization 0 s_disc).2 ⟨1, true⟩ (by decide)
      (by decide) (by decide) (by decide) (by decide)

/-- C8: a sender who is not one of the match's two participants is turned
away with `AccessDenied` and the store — in particular the match's message
log — is untouched, so the message count is unchanged. -/
theorem send_message_access_denied (actor mid : Nat) (content : String)
    (s : State) (m : MatchRow)
    (hm : s.«matches».find? (fun x => x.id == mid) = some m)
    (h1 : actor ≠ m.user1_id) (h2 : actor ≠ m.user2_id) :
    send_message actor mid content s = (.accessDenied, s) ∧
    ((send_message actor mid content s).2.messages.filter
        (fun msg => msg.match_id == mid)).length =
      (s.messages.filter (fun msg => msg.match_id == mid)).length := by
  have heq : send_message actor mid content s = (.accessDenied, s) := by
    have hmem : (actor == m.user1_id || actor == m.user2_id) = false := by
      simp [h1, h2]
    simp only [send_message, hm, hmem, Bool.not_false, if_true]
  exact ⟨heq, by rw [heq]⟩

/-- Witness for C8: user 3 is not a participant of match 0 between users 1
and 2; their send attempt is rejected and the store is unchanged. -/
theorem send_message_access_denied_witness :
    s_mutual.«matches».find? (fun x => x.id == 0) = some ⟨0, 1, 2⟩ ∧
    (3 : Nat) ≠ 1 ∧ (3 : Nat) ≠ 2 ∧
    send_message 3 0 "hello" s_mutual = (.accessDenied, s_mutual) := by
  have h := send_message_access_denied 3 0 "hello" s_mutual ⟨0, 1, 2⟩
    (by decide) (by decide) (by decide)
  exact ⟨by decide, by decide, by decide, h.1⟩

/-- C4: for a participant of an existing match, `send_message` rejects the
content with a validation error — appending nothing — exactly when the
stripped content is empty or the raw content exceeds 1000 characters;
otherwise it appends exactly one Message row with `sender_id = actor` and
`is_read = false` and returns it with its assigned id and timestamp. -/
theorem send_message_semantics (actor mid : Nat) (content : String)
    (s : State) (m : MatchRow)
    (hm : s.«matches».find? (fun x => x.id == mid) = some m)
    (hmem : actor = m.user1_id ∨ actor = m.user2_id) :
    ((strip content = "" ∨ 1000 < content.length) →
       send_message actor mid content s = (.validationError, s)) ∧
    (strip content ≠ "" → content.length ≤ 1000 →
       ∃ msg, send_message actor mid content s =
           (.sent msg,
            { s with messages := s.messages ++ [msg]
                     nextMessageId := s.nextMessageId + 1 }) ∧
         msg.sender_id = actor ∧ msg.is_read = false ∧
         msg.id = s.nextMessageId ∧ msg.created_at = s.now) := by
  have hmem' : (actor == m.user1_id || actor == m.user2_id) = true := by
    rcases hmem with h | h <;> simp [h]
  constructor
  · intro hbad
    have hv : messageFormValid content = false := by
      rcases hbad with h | h
      · simp [messageFormValid, h]
      · have hgt : ¬ content.length ≤ 1000 := by omega
        simp [messageFormValid, hgt]
    simp only [send_message, hm, hmem', Bool.not_true, Bool.false_eq_true,
      if_false, hv]
  · intro h1 h2
    have hv : messageFormValid content = true := by
      simp [messageFormValid, h1, strip_length_pos h1, h2]
    refine ⟨⟨s.nextMessageId, mid, actor, strip content, s.now, false⟩,
      ?_, rfl, rfl, rfl, rfl⟩
    simp only [send_message, hm, hmem', Bool.not_true, Bool.false_eq_true,
      if_false, hv, if_true]

/-- Witness for C4: in match 0, participant 1 has " " rejected (blank after
stripping), a 1001-character message rejected, and " hi " accepted and
stored stripped as an unread message from sender 1. -/
theorem send_message_semantics_witness :
    send_message 1 0 " " s_mutual = (.validationError, s_mutual) ∧
    (∃ msg, send_message 1 0 " hi " s_mutual =
        (.sent msg,
         { s_mutual with messages := s_mutual.messages ++ [msg]
                         nextMessageId := s_mutual.nextMessageId + 1 }) ∧
      msg.sender_id = 1 ∧ msg.is_read = false ∧
      msg.id = s_mutual.nextMessageId ∧ msg.created_at = s_mutual.now) := by
  constructor
  · exact (send_message_semantics 1 0 " " s_mutual ⟨0, 1, 2⟩ (by decide)
      (Or.inl (by decide))).1 (Or.inl (by decide))
  · exact (send_message_semantics 1 0 " hi " s_mutual ⟨0, 1, 2⟩ (by decide)
      (Or.inl (by decide))).2 (by decide) (by decide)

/-- C3: `unlike(a, b)` answers 404 and mutates nothing when the Like
`a → b` is absent; otherwise it succeeds, after it the Like `a → b` is
gone while every other Like survives, and — when a Match for the unordered
pair existed — that Match is deleted exactly when the reverse Like
`b → a` is absent at that moment. -/
theorem unlike_semantics (a b : Nat) (s : State) (hreach : Reachable s) :
    (findLike s a b = none → unlike_user a b s = (.notFound, s)) ∧
    (findLike s a b ≠ none →
      (unlike_user a b s).1 = .success ∧
      findLike (unlike_user a b s).2 a b = none ∧
      (∀ l ∈ s.likes, likePred a b l = false → l ∈ (unlike_user a b s).2.likes) ∧
      (∀ l ∈ (unlike_user a b s).2.likes, l ∈ s.likes) ∧
      (get_match_with_user s a b = none →
        get_match_with_user (unlike_user a b s).2 a b = none) ∧
      (get_match_with_user s a b ≠ none →
        (get_match_with_user (unlike_user a b s).2 a b = none ↔
          findLike (unlike_user a b s).2 b a = none))) := by
  have inv := invariants_reachable hreach
  refine ⟨fun h => unlike_noLike a b s h, fun h => ?_⟩
  obtain ⟨lk, hlk⟩ := Option.ne_none_iff_exists'.mp h
  have hclear : ∀ y ∈ (afterLikeErase a b s).likes, likePred a b y = false :=
    eraseP_clears inv.likeUnique hlk (fun y z => likePred_same)
  have hgone : findLike (afterLikeErase a b s) a b = none := by
    rw [findLike, List.find?_eq_none]
    intro x hx
    rw [hclear x hx]
    exact Bool.false_ne_true
  have hkeep : ∀ l ∈ s.likes, likePred a b l = false →
      l ∈ (afterLikeErase a b s).likes := by
    intro l hl hpl
    exact (List.mem_eraseP_of_neg (by rw [hpl]; exact Bool.false_ne_true)).mpr hl
  have hsub : ∀ l ∈ (afterLikeErase a b s).likes, l ∈ s.likes :=
    fun l hl => List.mem_of_mem_eraseP hl
  cases hmp : findMatchPair s a b with
  | none =>
    rw [unlike_noMatch a b s lk hlk hmp]
    have hafter : get_match_with_user (afterLikeErase a b s) a b = none := hmp
    exact ⟨rfl, hgone, hkeep, hsub, fun _ => hafter, fun hne => absurd hmp hne⟩
  | some m =>
    have hbefore : get_match_with_user s a b = some m := hmp
    cases hrev : findLike (afterLikeErase a b s) b a with
    | some r =>
      rw [unlike_match_revKept a b s lk r m hlk hmp hrev]
      have hafter : get_match_with_user (afterLikeErase a b s) a b = some m := hmp
      refine ⟨rfl, hgone, hkeep, hsub, ?_, ?_⟩
      · intro h'
        rw [hbefore] at h'
        exact Option.noConfusion h'
      · intro _
        rw [hafter, hrev]
        simp
    | none =>
      rw [unlike_match_revGone a b s lk m hlk hmp hrev]
      have hmcleared : ∀ y ∈ s.«matches».eraseP (matchPairPred a b),
          matchPairPred a b y = false :=
        eraseP_clears inv.matchUnique hmp (fun y z => matchPairPred_same)
      have hafter :
          get_match_with_user (afterMatchErase a b m (afterLikeErase a b s)) a b
            = none := by
        simp only [get_match_with_user, findMatchPair]
        rw [List.find?_eq_none]
        intro x hx
        rw [hmcleared x hx]
        exact Bool.false_ne_true
      refine ⟨rfl, hgone, hkeep, hsub, fun _ => hafter, ?_⟩
      intro _
      have hrev' :
          findLike (afterMatchErase a b m (afterLikeErase a b s)) b a = none :=
        hrev
      exact ⟨fun _ => hrev', fun _ => hafter⟩

/-- Witness for C3: on the mutual-match store, unliking an unknown pair is
a 404 no-op, while user 1 unliking user 2 succeeds, removes the Like, and
the Match survives precisely because the reverse Like 2 → 1 remains. -/
theorem unlike_semantics_witness :
    unlike_user 3 4 s_mutual = (.notFound, s_mutual) ∧
    (unlike_user 1 2 s_mutual).1 = .success ∧
    findLike (unlike_user 1 2 s_mutual).2 1 2 = none ∧
    (get_match_with_user (unlike_user 1 2 s_mutual).2 1 2 = none ↔
      findLike (unlike_user 1 2 s_mutual).2 2 1 = none) := by
  have h0 := (unlike_semantics 3 4 s_mutual reachable_s_mutual).1 (by decide)
  have h := (unlike_semantics 1 2 s_mutual reachable_s_mutual).2 (by decide)
  exact ⟨h0, h.1, h.2.1, h.2.2.2.2.2 (by decide)⟩

/-- C10: in every reachable store, each Message row points at an existing
Match row and its sender is one of that match's two participants. -/
theorem message_rows_wellformed (s : State) (hreach : Reachable s) :
    ∀ msg ∈ s.messages, ∃ m ∈ s.«matches»,
      m.id = msg.match_id ∧
      (msg.sender_id = m.user1_id ∨ msg.sender_id = m.user2_id) :=
  (invariants_reachable hreach).messageOk

/-- Witness for C10: the concrete message in the reachable store `s_msg`
belongs to match 0 and was sent by participant 1. -/
theorem message_rows_wellformed_witness :
    (⟨0, 0, 1, "hi", 0, false⟩ : MessageRow) ∈ s_msg.messages ∧
    ∃ m ∈ s_msg.«matches»,
      m.id = (⟨0, 0, 1, "hi", 0, false⟩ : MessageRow).match_id ∧
      ((⟨0, 0, 1, "hi", 0, false⟩ : MessageRow).sender_id = m.user1_id ∨
       (⟨0, 0, 1, "hi", 0, false⟩ : MessageRow).sender_id = m.user2_id) :=
  ⟨by decide,
   message_rows_wellformed s_msg reachable_s_msg ⟨0, 0, 1, "hi", 0, false⟩
     (by decide)⟩

/-- When nothing is unread, `mark_messages_read` reports a zero count and
leaves the store exactly as it was. -/
theorem mark_read_nothing_unread (actor mid : Nat) (s : State) (m : MatchRow)
    (hm : s.«matches».find? (fun x => x.id == mid) = some m)
    (hmem : (actor == m.user1_id || actor == m.user2_id) = true)
    (hall : ∀ y ∈ s.messages, unreadPred actor mid y = false) :
    mark_messages_read actor mid s = (.marked 0, s) := by
  rw [mark_read_eq actor mid s m hm hmem]
  have h1 : s.messages.filter (unreadPred actor mid) = [] :=
    List.filter_eq_nil_iff.mpr
      (fun y hy => by rw [hall y hy]; exact Bool.false_ne_true)
  have h2 : s.messages.map (fun msg =>
      if unreadPred actor mid msg then { msg with is_read := true }
      else msg) = s.messages := by
    rw [List.map_congr_left (g := fun msg => msg)
      (fun msg hmsg => by rw [hall msg hmsg]; simp), List.map_id']
  rw [h1, h2]
  rfl

/-- C9: for a participant `actor` of match `mid`, `mark_messages_read`
flips exactly the unread messages of that match authored by the other
participant to read, reports their number, and is idempotent: a second
invocation reports zero and changes nothing. -/
theorem mark_read_semantics (actor mid : Nat) (s : State) (m : MatchRow)
    (hreach : Reachable s)
    (hm : s.«matches».find? (fun x => x.id == mid) = some m)
    (hmem : actor = m.user1_id ∨ actor = m.user2_id) :
    (mark_messages_read actor mid s).1 =
      .marked ((s.messages.filter (fun msg =>
        msg.match_id == mid &&
        msg.sender_id == (if actor = m.user1_id then m.user2_id else m.user1_id) &&
        msg.is_read == false)).length) ∧
    (mark_messages_read actor mid s).2.messages = s.messages.map (fun msg =>
      if msg.match_id == mid &&
         msg.sender_id == (if actor = m.user1_id then m.user2_id else m.user1_id) &&
         msg.is_read == false
      then { msg with is_read := true } else msg) ∧
    mark_messages_read actor mid (mark_messages_read actor mid s).2 =
      (.marked 0, (mark_messages_read actor mid s).2) := by
  have inv := invariants_reachable hreach
  have hmmem : m ∈ s.«matches» := List.mem_of_find?_eq_some hm
  have hdist : m.user1_id ≠ m.user2_id := inv.matchUsersDistinct m hmmem
  have hmid : m.id = mid := by
    have h2 := List.find?_some hm
    exact beq_iff_eq.mp h2
  have hmem' : (actor == m.user1_id || actor == m.user2_id) = true := by
    rcases hmem with h | h <;> simp [h]
  have hpt : ∀ msg ∈ s.messages, unreadPred actor mid msg =
      (msg.match_id == mid &&
       msg.sender_id == (if actor = m.user1_id then m.user2_id else m.user1_id) &&
       msg.is_read == false) := by
    intro msg hmsg
    by_cases hmatch : msg.match_id = mid
    · obtain ⟨m1, hm1, hid1, hs1⟩ := inv.messageOk msg hmsg
      have hm1m : m1 = m :=
        pairwise_key_inj inv.matchIdUnique m1 hm1 m hmmem
          (by rw [hid1, hmatch, hmid])
      subst hm1m
      rcases hmem with ha | ha
      · subst ha
        rcases hs1 with hsend | hsend
        · simp [unreadPred, hmatch, hsend, hdist]
        · simp [unreadPred, hmatch, hsend, Ne.symm hdist]
      · subst ha
        rcases hs1 with hsend | hsend
        · simp [unreadPred, hmatch, hsend, hdist, Ne.symm hdist]
        · simp [unreadPred, hmatch, hsend, hdist, Ne.symm hdist]
    · have hne : (msg.match_id == mid) = false := by simp [hmatch]
      simp [unreadPred, hne]
  refine ⟨?_, ?_, ?_⟩
  · rw [mark_read_eq actor mid s m hm hmem']
    show MarkReadResponse.marked _ = MarkReadResponse.marked _
    rw [List.filter_congr hpt]
  · rw [mark_read_eq actor mid s m hm hmem']
    show List.map _ s.messages = _
    exact List.map_congr_left (fun msg hmsg => by rw [hpt msg hmsg])
  · have hall : ∀ y ∈ (mark_messages_read actor mid s).2.messages,
        unreadPred actor mid y = false := by
      rw [mark_read_eq actor mid s m hm hmem']
      intro y hy
      have hy' : y ∈ s.messages.map (fun msg =>
          if unreadPred actor mid msg then { msg with is_read := true }
          else msg) := hy
      obtain ⟨x, hx, hxy⟩ := List.mem_map.mp hy'
      by_cases hux : unreadPred actor mid x = true
      · rw [if_pos hux] at hxy
        rw [← hxy]
        simp [unreadPred]
      · rw [if_neg hux] at hxy
        rw [← hxy]
        exact Bool.not_eq_true _ |>.mp hux
    have hm2 : (mark_messages_read actor mid s).2.«matches».find?
        (fun x => x.id == mid) = some m := by
      rw [mark_read_eq actor mid s m hm hmem']
      exact hm
    exact mark_read_nothing_unread actor mid _ m hm2 hmem' hall

/-- Witness for C9: participant 2 marks match 0 read in the store with one
unread message from 1; the count matches the filter and a repeat returns
zero without changing anything. -/
theorem mark_read_semantics_witness :
    s_msg.«matches».find? (fun x => x.id == 0) = some ⟨0, 1, 2⟩ ∧
    ((2 : Nat) = 1 ∨ (2 : Nat) = 2) ∧
    (mark_messages_read 2 0 s_msg).1 =
      .marked ((s_msg.messages.filter (fun msg =>
        msg.match_id == 0 &&
        msg.sender_id == (if (2 : Nat) = 1 then 2 else 1) &&
        msg.is_read == false)).length) ∧
    mark_messages_read 2 0 (mark_messages_read 2 0 s_msg).2 =
      (.marked 0, (mark_messages_read 2 0 s_msg).2) := by
  have h := mark_read_semantics 2 0 s_msg ⟨0, 1, 2⟩ reachable_s_msg
    (by decide) (Or.inr (by decide))
  exact ⟨by decide, Or.inr (by decide), h.1, h.2.2⟩

/-- C1: on a reachable store where distinct users `a` and `b` have no likes
between them, `like(a, b)` reports no match, the following `like(b, a)`
reports `match_created = true`, and afterwards exactly one Match row exists
for the pair, canonically stored as `(min a b, max a b)`. -/
theorem mutual_like_creates_match (a b : Nat) (s : State)
    (hreach : Reachable s) (hab : a ≠ b)
    (h1 : findLike s a b = none) (h2 : findLike s b a = none) :
    (create_like_and_check_match a b s).2.1 = false ∧
    (create_like_and_check_match b a
      (create_like_and_check_match a b s).2.2).2.1 = true ∧
    ∃ m, (create_like_and_check_match b a
            (create_like_and_check_match a b s).2.2).2.2.«matches».filter
          (matchPairPred a b) = [m] ∧
      m.user1_id = min a b ∧ m.user2_id = max a b := by
  have inv := invariants_reachable hreach
  have hnomatch : findMatchPair s a b = none := by
    rw [findMatchPair_eq_none_iff]
    intro m hm hpred
    rw [matchPairPred_eq_true_iff] at hpred
    rcases inv.matchHasLike m hm with ⟨l, hl, he1, he2⟩ | ⟨l, hl, he1, he2⟩
    · rcases hpred with ⟨e1, e2⟩ | ⟨e1, e2⟩
      · exact findLike_eq_none_iff.mp h1 l hl (by rw [likePred_eq_true_iff]; omega)
      · exact findLike_eq_none_iff.mp h2 l hl (by rw [likePred_eq_true_iff]; omega)
    · rcases hpred with ⟨e1, e2⟩ | ⟨e1, e2⟩
      · exact findLike_eq_none_iff.mp h2 l hl (by rw [likePred_eq_true_iff]; omega)
      · exact findLike_eq_none_iff.mp h1 l hl (by rw [likePred_eq_true_iff]; omega)
  rw [create_like_fresh_noRev a b s hab h1 h2]
  refine ⟨rfl, ?_⟩
  have hba : b ≠ a := Ne.symm hab
  have h1' : findLike (afterLikeInsert a b s) b a = none :=
    (findLike_afterLikeInsert_rev a b s hab).trans h2
  have h2' : findLike (afterLikeInsert a b s) a b = some (newLikeRow a b s) :=
    findLike_afterLikeInsert_fwd a b s h1
  have hm' : findMatchPair (afterLikeInsert a b s) b a = none := by
    rw [findMatchPair, ← matchPairPred_comm a b]
    exact hnomatch
  rw [create_like_fresh_rev_noMatch b a (afterLikeInsert a b s)
    (newLikeRow a b s) hba h1' h2' hm']
  refine ⟨rfl, newMatchRow b a (afterLikeInsert a b s), ?_, ?_, ?_⟩
  · have hnil : (afterLikeInsert a b s).«matches».filter (matchPairPred a b)
        = [] := by
      apply List.filter_eq_nil_iff.mpr
      intro m hm
      exact findMatchPair_eq_none_iff.mp hnomatch m hm
    have hpos : matchPairPred a b (newMatchRow b a (afterLikeInsert a b s))
        = true := by
      rw [matchPairPred_eq_true_iff]
      simp only [newMatchRow]
      omega
    show ((afterLikeInsert a b s).«matches» ++
        [newMatchRow b a (afterLikeInsert a b s)]).filter (matchPairPred a b)
      = _
    rw [List.filter_append, hnil]
    simp [hpos]
  · simp only [newMatchRow]
    omega
  · simp only [newMatchRow]
    omega

/-- Witness for C1: the 1 ↔ 2 mutual like on the empty database produces no
match on the first call, a match on the second, and one canonical row. -/
theorem mutual_like_creates_match_witness :
    (1 : Nat) ≠ 2 ∧ findLike initState 1 2 = none ∧
    findLike initState 2 1 = none ∧
    (create_like_and_check_match 1 2 initState).2.1 = false ∧
    (create_like_and_check_match 2 1
      (create_like_and_check_match 1 2 initState).2.2).2.1 = true ∧
    ∃ m, (create_like_and_check_match 2 1
            (create_like_and_check_match 1 2 initState).2.2).2.2.«matches».filter
          (matchPairPred 1 2) = [m] ∧
      m.user1_id = min 1 2 ∧ m.user2_id = max 1 2 := by
  have h := mutual_like_creates_match 1 2 initState Reachable.init
    (by decide) (by decide) (by decide)
  exact ⟨by decide, by decide, by decide, h.1, h.2.1, h.2.2⟩

/-- Counterexample to C2 as stated: on the reachable store with the mutual
match 1 ↔ 2 (both Likes present and the Match row existing), `unlike(1, 2)`
does NOT delete the Match row — the reverse Like 2 → 1 still exists, so the
subsequent `get_match_with(1, 2)` still returns the row, not none. -/
theorem unlike_after_mutual_match_counterexample :
    (findLike s_mutual 1 2).isSome = true ∧
    (findLike s_mutual 2 1).isSome = true ∧
    get_match_with_user s_mutual 1 2 = some ⟨0, 1, 2⟩ ∧
    get_match_with_user (unlike_user 1 2 s_mutual).2 1 2 = some ⟨0, 1, 2⟩ := by
  decide

/-- C2 (amended): after a mutual match between distinct `a` and `b`,
`unlike(a, b)` succeeds but leaves the Match row in place, because the
reverse Like `b → a` still exists at that moment; only once the reverse
Like is also removed — e.g. by a subsequent `unlike(b, a)` — is the Match
deleted, and `get_match_with(a, b)` then returns none. -/
theorem unlike_after_mutual_match (a b : Nat) (s : State) (m : MatchRow)
    (hreach : Reachable s) (hab : a ≠ b)
    (hl1 : findLike s a b ≠ none) (hl2 : findLike s b a ≠ none)
    (hm : get_match_with_user s a b = some m) :
    (unlike_user a b s).1 = .success ∧
    get_match_with_user (unlike_user a b s).2 a b = some m ∧
    (unlike_user b a (unlike_user a b s).2).1 = .success ∧
    get_match_with_user (unlike_user b a (unlike_user a b s).2).2 a b
      = none := by
  have inv := invariants_reachable hreach
  obtain ⟨lk1, hlk1⟩ := Option.ne_none_iff_exists'.mp hl1
  obtain ⟨lk2, hlk2⟩ := Option.ne_none_iff_exists'.mp hl2
  have hmfind : findMatchPair s a b = some m := hm
  have hlk2p : likePred b a lk2 = true := List.find?_some hlk2
  have hlk2mem : lk2 ∈ s.likes := List.mem_of_find?_eq_some hlk2
  have hlk2np : ¬ likePred a b lk2 = true := by
    intro hc
    rw [likePred_eq_true_iff] at hc hlk2p
    omega
  have hlk2surv : lk2 ∈ (afterLikeErase a b s).likes :=
    (List.mem_eraseP_of_neg hlk2np).mpr hlk2mem
  have hrev1ne : findLike (afterLikeErase a b s) b a ≠ none := by
    intro hc
    rw [findLike, List.find?_eq_none] at hc
    exact hc lk2 hlk2surv hlk2p
  obtain ⟨r, hr⟩ := Option.ne_none_iff_exists'.mp hrev1ne
  have hafter1 : get_match_with_user (afterLikeErase a b s) a b = some m :=
    hmfind
  have hmfind2 : findMatchPair (afterLikeErase a b s) b a = some m := by
    rw [findMatchPair, ← matchPairPred_comm a b]
    exact hmfind
  have hclear1 : ∀ y ∈ (afterLikeErase a b s).likes, likePred a b y = false :=
    eraseP_clears inv.likeUnique hlk1 (fun y z => likePred_same)
  have hrev2 : findLike (afterLikeErase b a (afterLikeErase a b s)) a b
      = none := by
    rw [findLike, List.find?_eq_none]
    intro x hx
    have hx' : x ∈ (afterLikeErase a b s).likes := List.mem_of_mem_eraseP hx
    rw [hclear1 x hx']
    exact Bool.false_ne_true
  have e2 := unlike_match_revGone b a (afterLikeErase a b s) r m hr hmfind2 hrev2
  have hmcleared : ∀ y ∈ (afterLikeErase a b s).«matches».eraseP
      (matchPairPred b a), matchPairPred b a y = false :=
    eraseP_clears inv.matchUnique hmfind2 (fun y z => matchPairPred_same)
  have hafter2 : get_match_with_user
      (afterMatchErase b a m (afterLikeErase b a (afterLikeErase a b s))) a b
      = none := by
    simp only [get_match_with_user, findMatchPair]
    rw [List.find?_eq_none]
    intro x hx
    rw [matchPairPred_comm a b, hmcleared x hx]
    exact Bool.false_ne_true
  rw [unlike_match_revKept a b s lk1 r m hlk1 hmfind hr]
  refine ⟨rfl, hafter1, ?_, ?_⟩
  · show (unlike_user b a (afterLikeErase a b s)).1 = .success
    rw [e2]
  · show get_match_with_user (unlike_user b a (afterLikeErase a b s)).2 a b
      = none
    rw [e2]
    exact hafter2

/-- Witness for the amended C2: on the concrete store with mutual match
1 ↔ 2, the first unlike keeps the Match, the second deletes it. -/
theorem unlike_after_mutual_match_witness :
    (1 : Nat) ≠ 2 ∧ findLike s_mutual 1 2 ≠ none ∧
    findLike s_mutual 2 1 ≠ none ∧
    get_match_with_user s_mutual 1 2 = some ⟨0, 1, 2⟩ ∧
    (unlike_user 1 2 s_mutual).1 = .success ∧
    get_match_with_user (unlike_user 1 2 s_mutual).2 1 2 = some ⟨0, 1, 2⟩ ∧
    (unlike_user 2 1 (unlike_user 1 2 s_mutual).2).1 = .success ∧
    get_match_with_user (unlike_user 2 1 (unlike_user 1 2 s_mutual).2).2 1 2
      = none := by
  have h := unlike_after_mutual_match 1 2 s_mutual ⟨0, 1, 2⟩ reachable_s_mutual
    (by decide) (by decide) (by decide) (by decide)
  exact ⟨by decide, by decide, by decide, by decide, h.1, h.2.1, h.2.2.1,
    h.2.2.2⟩

end Matchapp
